import Mathlib

/-!
Verification of the wheelmap-elstatus equipment-resolution pipeline.

The definitions below are a shallow embedding of the Rust sources:
`src/lib.rs` (feature parsing, equipment resolution), `src/main.rs`
(the batch over all configured groups) and `src/display.rs` (the
retrying upload).  JSON values are modelled by an inductive type
mirroring `serde_json::Value` (numbers restricted to integers, which
is all this code touches), machine effects (HTTP, sleeping) are made
explicit as data, and the third-party `ngrammatic` similarity corpus —
whose source is not part of this repository — is modelled from the
spec.
-/

namespace ElStatus

/-- JSON values, mirroring `serde_json::Value`.  Objects keep their
fields as an association list; `serde_json` maps have unique keys, and
`get` below returns the first binding, which agrees with map lookup on
such objects. -/
inductive Json where
  | null
  | bool (b : Bool)
  | num (n : Int)
  | str (s : String)
  | arr (elems : List Json)
  | obj (fields : List (String × Json))

/-- `serde_json::Value::get(key)`: field lookup on objects, `None` on
every other variant. -/
def Json.get (j : Json) (key : String) : Option Json :=
  match j with
  | .obj fields => (fields.find? (fun f => f.1 == key)).map (fun f => f.2)
  | _ => none

/-- `Value::as_str`. -/
def Json.as_str : Json → Option String
  | .str s => some s
  | _ => none

/-- `Value::as_bool`. -/
def Json.as_bool : Json → Option Bool
  | .bool b => some b
  | _ => none

/-- `Value::as_array`. -/
def Json.as_array : Json → Option (List Json)
  | .arr elems => some elems
  | _ => none

/-- One character of a JSON string literal, escaped as `serde_json`
prints it. -/
def escapeJsonChar (c : Char) : String :=
  if c = '"' then "\\\""
  else if c = '\\' then "\\\\"
  else if c = '\n' then "\\n"
  else if c = '\t' then "\\t"
  else if c = '\r' then "\\r"
  else if c.toNat = 8 then "\\b"
  else if c.toNat = 12 then "\\f"
  else if c.toNat < 32 then
    "\\u00" ++ String.singleton (Nat.digitChar (c.toNat / 16))
      ++ String.singleton (Nat.digitChar (c.toNat % 16))
  else String.singleton c

/-- A JSON string literal as `serde_json` prints it. -/
def jsonStrLit (s : String) : String :=
  "\"" ++ String.join (s.data.map escapeJsonChar) ++ "\""

mutual

/-- `Value::to_string()`: the compact serialization used by
`serde_json` (no whitespace). -/
def Json.toString : Json → String
  | .null => "null"
  | .bool true => "true"
  | .bool false => "false"
  | .num n => ToString.toString n
  | .str s => jsonStrLit s
  | .arr elems => "[" ++ Json.arrBody elems ++ "]"
  | .obj fields => "\x7b" ++ Json.objBody fields ++ "\x7d"

/-- Comma-separated serialization of array elements. -/
def Json.arrBody : List Json → String
  | [] => ""
  | [x] => Json.toString x
  | x :: rest => Json.toString x ++ "," ++ Json.arrBody rest

/-- Comma-separated serialization of object fields. -/
def Json.objBody : List (String × Json) → String
  | [] => ""
  | [(k, v)] => jsonStrLit k ++ ":" ++ Json.toString v
  | (k, v) :: rest => jsonStrLit k ++ ":" ++ Json.toString v ++ "," ++ Json.objBody rest

end

/-- The error enum of `src/lib.rs` (`EquipmentAccessError`).  HTTP
status codes are modelled as naturals. -/
inductive EquipmentAccessError where
  | MissingValue (value : String) (json : String)
  | InvalidType (expected_type : String) (json : String)
  | HTTPRequestError (status : Nat) (response_text : String)
  | CannotFindEquipment (query_text : String)
deriving DecidableEq, Repr

/-- The `Equipment` struct of `src/lib.rs`. -/
structure Equipment where
  name : String
  category : String
  working : Option Bool
  place : Option String
deriving DecidableEq, Repr

/-- The error component of an `Except`, `none` on success (the
composition `Result::err` after a partition in the Rust source). -/
def exceptError {ε α : Type} : Except ε α → Option ε
  | .error e => some e
  | .ok _ => none

/-- `parse_equipment` from `src/lib.rs` (lines 142-175): extract one
`Equipment` from a feature object.  `Value::default()` is `Null`. -/
def parse_equipment (json : Json) : Except EquipmentAccessError Equipment :=
  match json.get "properties" with
  | some properties =>
    let working := ((properties.get "isWorking").getD Json.null).as_bool
    let name := (((properties.get "description").bind
        (fun description => ((description.get "de").getD description).as_str)).getD
      "Cannot find description!")
    let category := ((properties.get "category").bind Json.as_str).getD "elevator"
    let place := (properties.get "placeInfoName").bind Json.as_str
    Except.ok { name := name, category := category, working := working, place := place }
  | none =>
    Except.error (.MissingValue "description" json.toString)

/-- The name-extraction chain of `parse_equipment` before the
placeholder fallback: `properties.description.de` (falling back to
`properties.description` itself) as a string, or `none`. -/
def description_extract (json : Json) : Option String :=
  (json.get "properties").bind (fun properties =>
    (properties.get "description").bind
      (fun description => ((description.get "de").getD description).as_str))

/-- `str::to_lowercase` as used in `src/lib.rs` line 190: per-character
lowercasing (spelled out on the character list so it is computable by
the kernel; it agrees with `String.toLower`). -/
def to_lowercase (s : String) : String := ⟨s.data.map Char.toLower⟩

/-- `parse_equipment_list` from `src/lib.rs` (lines 177-205): parse
every element of a feature array, keep the successes whose category is
(lower-cased) "elevator", and fail with all collected element errors
exactly when nothing is kept. -/
def parse_equipment_list (json : Json) :
    Except (List EquipmentAccessError) (List Equipment) :=
  match json.as_array with
  | some equipments =>
    let parts := (equipments.map parse_equipment).partition Except.isOk
    let kept := (parts.1.filterMap Except.toOption).filter
      (fun equipment => to_lowercase equipment.category == "elevator")
    let errors := parts.2.filterMap exceptError
    if kept.isEmpty then Except.error errors else Except.ok kept
  | none =>
    Except.error [.InvalidType "Array" json.toString]

/-- One iteration of the search loop of `get_equipments` in
`src/lib.rs` (lines 105-119): query the corpus (`search_fn` abstracts
`corpus.search(search, 0.4)`, returning the above-threshold result
names best-first), take the best result, and map it back to an
equipment record by exact name equality. -/
def corpus_lookup (source_equipments : List Equipment)
    (search_fn : String → List String) (search : String) : Option Equipment :=
  ((search_fn search).head?).bind
    (fun result_text => source_equipments.find? (fun equipment => equipment.name == result_text))

/-- The search loop of `get_equipments` in `src/lib.rs` (lines
103-121): resolve each search label in order, pushing the matched
record, and fail the whole group with `CannotFindEquipment` at the
first label that does not resolve. -/
def resolve_searches (source_equipments : List Equipment)
    (search_fn : String → List String) :
    List String → Except EquipmentAccessError (List Equipment)
  | [] => Except.ok []
  | search :: rest =>
    match corpus_lookup source_equipments search_fn search with
    | some equipment =>
      (resolve_searches source_equipments search_fn rest).map
        (fun results => equipment :: results)
    | none => Except.error (.CannotFindEquipment search)

/-- The batch over all configured groups, from `main` in `src/main.rs`
(lines 361-371): run the resolver on every group, partition into
successes and failures, flatten the successful record lists and unwrap
the errors. -/
def batch_resolve {G ε : Type} (resolve : G → Except ε (List Equipment))
    (groups : List G) : List Equipment × List ε :=
  let parts := (groups.map resolve).partition Except.isOk
  ((parts.1.filterMap Except.toOption).flatten, parts.2.filterMap exceptError)

/-- Modelled from the spec: the n-gram decomposition of the
`ngrammatic` similarity corpus (a third-party crate, not part of this
repository).  Consecutive pairs of characters of a list. -/
def grams2 : List Char → List (Char × Char)
  | a :: b :: rest => (a, b) :: grams2 (b :: rest)
  | _ => []

/-- Modelled from the spec: the bigrams of a string, padded on both
sides so even short strings have at least one gram. -/
def gramsOf (s : String) : List (Char × Char) :=
  grams2 (' ' :: (s.data ++ [' ']))

/-- Modelled from the spec: the number of shared grams of two gram
multisets (counted with multiplicity). -/
def samegrams (l1 l2 : List (Char × Char)) : Nat :=
  (l1.dedup.map (fun g =>
    min (List.countP (fun x => decide (x = g)) l1)
      (List.countP (fun x => decide (x = g)) l2))).sum

/-- Modelled from the spec: the total gram count of a pair of strings
(each side's grams, with the shared ones counted once). -/
def allgrams (a b : String) : Nat :=
  (gramsOf a).length + (gramsOf b).length - samegrams (gramsOf a) (gramsOf b)

/-- Modelled from the spec: the number of non-shared grams of a pair
of strings. -/
def diffgrams (a b : String) : Nat :=
  allgrams a b - samegrams (gramsOf a) (gramsOf b)

/-- Modelled from the spec: the normalized n-gram similarity score of
two strings, on a 0-1 scale, with an exactly-equal pair scoring 1.
Rational-valued stand-in for the float score of `ngrammatic`. -/
def similarity (a b : String) : ℚ :=
  (((allgrams a b : ℚ) ^ 2) - ((diffgrams a b : ℚ) ^ 2)) / ((allgrams a b : ℚ) ^ 2)

/-- The fixed similarity threshold `0.4` passed to `corpus.search` in
`src/lib.rs` line 106. -/
def similarity_threshold : ℚ := 2 / 5

/-- Modelled from the spec: `corpus.search(query, threshold)` of
`ngrammatic` — the ingested names whose similarity score exceeds the
threshold, best score first. -/
def corpus_search (names : List String) (query : String) (threshold : ℚ) : List String :=
  List.insertionSort (fun a b => similarity query b ≤ similarity query a)
    (names.filter (fun n => threshold < similarity query n))

/-- The observable outcome of `upload_image` in `src/display.rs`: the
returned result, the number of push attempts made, and the list of
backoff delays slept (in milliseconds, in order). -/
structure UploadOutcome (ε : Type) where
  result : Except ε Unit
  attempts : Nat
  sleeps : List Nat

/-- `NUM_RETRIES` from `src/display.rs` line 167. -/
def NUM_RETRIES : Nat := 5

/-- The retry loop of `upload_image` in `src/display.rs` (lines
168-183): for each remaining attempt index, try the push (`push i` is
the outcome of the i-th call to `try_uploading`); on success return
`Ok` at once, on failure record the result, sleep `delay`, double it
and continue. -/
def upload_go {ε : Type} (push : Nat → Except ε Unit) (delay : Nat)
    (last_result : Except ε Unit) (attempts : Nat) (sleeps : List Nat) :
    List Nat → UploadOutcome ε
  | [] => ⟨last_result, attempts, sleeps⟩
  | i :: rest =>
    match push i with
    | .ok _ => ⟨Except.ok (), attempts + 1, sleeps⟩
    | .error e =>
      upload_go push (delay * 2) (Except.error e) (attempts + 1) (sleeps ++ [delay]) rest

/-- `upload_image` from `src/display.rs` (lines 162-186): up to
`NUM_RETRIES` attempts (`for i in 1..NUM_RETRIES + 1`), starting delay
100 ms, initial `last_result = Ok(())`. -/
def upload_image {ε : Type} (push : Nat → Except ε Unit) : UploadOutcome ε :=
  upload_go push 100 (Except.ok ()) 0 [] (List.range' 1 NUM_RETRIES)

/-! Concrete test fixtures, used by the witness theorems below. -/

/-- Three-group batch fixture in which exactly group 2 fails. -/
def group_outcome : Nat → Except String (List Equipment) :=
  fun g =>
    if g = 2 then Except.error "group 2: HTTP request failed"
    else Except.ok [Equipment.mk ("Aufzug " ++ ToString.toString g) "elevator"
        (some true) none]

/-- Batch fixture in which every group fails. -/
def group_down : Nat → Except String (List Equipment) :=
  fun _ => Except.error "down"

/-- Batch fixture in which every group succeeds. -/
def group_up : Nat → Except String (List Equipment) :=
  fun _ => Except.ok []

/-- A feature whose category is "elevator". -/
def elevator_feature : Json :=
  Json.obj [("properties", Json.obj
    [("category", Json.str "elevator"), ("description", Json.str "Aufzug Nord"),
      ("isWorking", Json.bool true)])]

/-- A feature that parses fine but whose category is "escalator". -/
def escalator_feature : Json :=
  Json.obj [("properties", Json.obj
    [("category", Json.str "escalator"), ("description", Json.str "Rolltreppe S")])]

/-- One concrete equipment record. -/
def sample_equipment : Equipment :=
  { name := "Aufzug Gleis 1", category := "elevator", working := some true, place := none }

/-- A corpus stub that only resolves the label "Gleis 1". -/
def sample_search_fn : String → List String :=
  fun q => if q = "Gleis 1" then ["Aufzug Gleis 1"] else []

/-- A push operation that fails on every attempt. -/
def always_error : Nat → Except Unit Unit :=
  fun _ => Except.error ()

/-- A push operation that fails on attempts 1-4 and succeeds on attempt 5. -/
def fails_then_ok : Nat → Except Unit Unit :=
  fun i => if i ≤ 4 then Except.error () else Except.ok ()

/-- A push operation that fails on attempts 1-2 and succeeds from attempt 3. -/
def fails_twice : Nat → Except Unit Unit :=
  fun i => if i ≤ 2 then Except.error () else Except.ok ()

/-- A JSON object with no `properties` sub-object. -/
def empty_object : Json := Json.obj []

/-- A feature whose `properties.description` is the empty string. -/
def empty_description_feature : Json :=
  Json.obj [("properties", Json.obj [("description", Json.str "")])]

/-- A feature whose `properties` object is empty. -/
def bare_properties_feature : Json :=
  Json.obj [("properties", Json.obj [])]

/-- A feature with a localized `properties.description.de` name. -/
def de_description_feature : Json :=
  Json.obj [("properties", Json.obj
    [("description", Json.obj [("de", Json.str "Aufzug Halle")])])]

/-- A feature whose `properties.category` is a number, not a string. -/
def numeric_category_feature : Json :=
  Json.obj [("properties", Json.obj [("category", Json.num 5)])]

/-! Helper lemmas. -/

theorem filterMap_toOption_filter_isOk {ε α : Type} (l : List (Except ε α)) :
    (l.filter Except.isOk).filterMap Except.toOption = l.filterMap Except.toOption := by
  induction l with
  | nil => rfl
  | cons x xs ih => cases x <;> simp [Except.isOk, Except.toBool, Except.toOption, List.filter_cons, ih]

theorem filterMap_error_filter_not_isOk {ε α : Type} (l : List (Except ε α)) :
    (l.filter (not ∘ Except.isOk)).filterMap exceptError = l.filterMap exceptError := by
  induction l with
  | nil => rfl
  | cons x xs ih => cases x <;> simp [Except.isOk, Except.toBool, exceptError, List.filter_cons, ih]

theorem resolve_searches_ok_eq (source : List Equipment) (sf : String → List String) :
    ∀ (labels : List String) (res : List Equipment),
      resolve_searches source sf labels = Except.ok res →
      res = labels.filterMap (corpus_lookup source sf) := by
  intro labels
  induction labels with
  | nil =>
    intro res h
    simp only [resolve_searches] at h
    cases h
    rfl
  | cons s rest ih =>
    intro res h
    simp only [resolve_searches] at h
    cases hc : corpus_lookup source sf s with
    | none => rw [hc] at h; cases h
    | some equipment =>
      rw [hc] at h
      cases hr : resolve_searches source sf rest with
      | error e => rw [hr] at h; cases h
      | ok res' =>
        rw [hr] at h
        cases h
        rw [List.filterMap_cons, hc, ih res' hr]

theorem batch_records_eq {G ε : Type} (resolve : G → Except ε (List Equipment))
    (groups : List G) :
    (batch_resolve resolve groups).1
      = (groups.filterMap (fun g => (resolve g).toOption)).flatten := by
  simp only [batch_resolve, List.partition_eq_filter_filter]
  rw [filterMap_toOption_filter_isOk, List.filterMap_map]
  rfl

theorem batch_errors_eq {G ε : Type} (resolve : G → Except ε (List Equipment))
    (groups : List G) :
    (batch_resolve resolve groups).2
      = groups.filterMap (fun g => exceptError (resolve g)) := by
  simp only [batch_resolve, List.partition_eq_filter_filter]
  rw [filterMap_error_filter_not_isOk, List.filterMap_map]
  rfl

/-! Claim theorems. -/

/-- C1: the Batch Resolver runs the resolver on each group
independently; its record output is the concatenation, in group order,
of the record lists of the successful groups (and within a group the
resolver emits records in search-label order), its error output has
exactly one error per failing group in group order, every-group-fails
yields an empty record list, and every-group-succeeds yields an empty
error list. -/
theorem batch_isolation_contract {G ε : Type} (resolve : G → Except ε (List Equipment))
    (groups : List G) :
    (batch_resolve resolve groups).1
        = (groups.filterMap (fun g => (resolve g).toOption)).flatten
      ∧ (batch_resolve resolve groups).2
        = groups.filterMap (fun g => exceptError (resolve g))
      ∧ ((∀ g ∈ groups, ∃ e, resolve g = Except.error e) →
          (batch_resolve resolve groups).1 = [])
      ∧ ((∀ g ∈ groups, ∃ r, resolve g = Except.ok r) →
          (batch_resolve resolve groups).2 = [])
      ∧ (∀ (source : List Equipment) (sf : String → List String)
            (labels : List String) (res : List Equipment),
          resolve_searches source sf labels = Except.ok res →
          res = labels.filterMap (corpus_lookup source sf)) := by
  refine ⟨batch_records_eq resolve groups, batch_errors_eq resolve groups, ?_, ?_,
    fun source sf labels res h => resolve_searches_ok_eq source sf labels res h⟩
  · intro h
    rw [batch_records_eq]
    have : groups.filterMap (fun g => (resolve g).toOption) = [] := by
      rw [List.filterMap_eq_nil_iff]
      intro g hg
      obtain ⟨e, he⟩ := h g hg
      rw [he]
      rfl
    rw [this]
    rfl
  · intro h
    rw [batch_errors_eq]
    rw [List.filterMap_eq_nil_iff]
    intro g hg
    obtain ⟨r, hr⟩ := h g hg
    rw [hr]
    rfl

/-- Witness for C1: the batch contract applied to a three-group run in
which exactly group 2 fails, to an all-fail run, to an all-succeed
run, and to a concrete successful group resolution. -/
theorem batch_isolation_contract_witness :
    (batch_resolve group_outcome [1, 2, 3]).1
        = ([1, 2, 3].filterMap (fun g => (group_outcome g).toOption)).flatten
      ∧ (batch_resolve group_down [1, 2]).1 = []
      ∧ (batch_resolve group_up [1, 2]).2 = []
      ∧ [sample_equipment]
        = ["Gleis 1"].filterMap (corpus_lookup [sample_equipment] sample_search_fn) := by
  refine ⟨(batch_isolation_contract group_outcome [1, 2, 3]).1, ?_, ?_, ?_⟩
  · exact (batch_isolation_contract group_down [1, 2]).2.2.1
      (fun g _ => ⟨"down", rfl⟩)
  · exact (batch_isolation_contract group_up [1, 2]).2.2.2.1
      (fun g _ => ⟨[], rfl⟩)
  · exact (batch_isolation_contract group_up ([] : List Nat)).2.2.2.2
      [sample_equipment] sample_search_fn ["Gleis 1"] [sample_equipment] rfl

/-- C2: the Feature List Parser rejects non-arrays with
`InvalidType("Array", <input>)`; on arrays it parses every element,
keeps only the successes whose category lower-cases to "elevator", and
fails with the full per-element parse error list exactly when the
post-filter set is empty (even when some elements parsed but were
filtered out); otherwise it returns the filtered records. -/
theorem feature_list_parser_contract (json : Json) :
    (json.as_array = none →
      parse_equipment_list json
        = Except.error [EquipmentAccessError.InvalidType "Array" json.toString])
    ∧ (∀ elems, json.as_array = some elems →
        (((elems.map parse_equipment).filterMap Except.toOption).filter
            (fun e => to_lowercase e.category == "elevator") = [] →
          parse_equipment_list json
            = Except.error ((elems.map parse_equipment).filterMap exceptError))
        ∧ (((elems.map parse_equipment).filterMap Except.toOption).filter
            (fun e => to_lowercase e.category == "elevator") ≠ [] →
          parse_equipment_list json
            = Except.ok (((elems.map parse_equipment).filterMap Except.toOption).filter
                (fun e => to_lowercase e.category == "elevator")))) := by
  constructor
  · intro h
    simp only [parse_equipment_list, h]
  · intro elems h
    simp only [parse_equipment_list, h, List.partition_eq_filter_filter,
      filterMap_toOption_filter_isOk, filterMap_error_filter_not_isOk]
    constructor
    · intro hk
      rw [hk]
      rfl
    · intro hk
      have hb : (((elems.map parse_equipment).filterMap Except.toOption).filter
          (fun e => to_lowercase e.category == "elevator")).isEmpty = false := by
        rw [← Bool.not_eq_true, List.isEmpty_iff]
        exact hk
      rw [hb]
      rfl

/-- Witness for C2: a non-array input fails with `InvalidType`; an
array holding one well-parsed escalator fails with the (empty) parse
error list because the post-filter set is empty; an array holding one
elevator succeeds. -/
theorem feature_list_parser_contract_witness :
    parse_equipment_list (Json.num 7)
        = Except.error [EquipmentAccessError.InvalidType "Array" "7"]
      ∧ parse_equipment_list (Json.arr [escalator_feature]) = Except.error []
      ∧ parse_equipment_list (Json.arr [elevator_feature, escalator_feature])
        = Except.ok [Equipment.mk "Aufzug Nord" "elevator" (some true) none] := by
  refine ⟨(feature_list_parser_contract (Json.num 7)).1 rfl, ?_, ?_⟩
  · have h := ((feature_list_parser_contract (Json.arr [escalator_feature])).2
      [escalator_feature] rfl).1 (by decide)
    rw [h]
    rfl
  · have h := ((feature_list_parser_contract
        (Json.arr [elevator_feature, escalator_feature])).2
      [elevator_feature, escalator_feature] rfl).2 (by decide)
    rw [h]
    rfl

theorem resolve_searches_append_fail (source : List Equipment)
    (sf : String → List String) :
    ∀ (pre : List String) (label : String) (tail : List String),
      (∀ p ∈ pre, (corpus_lookup source sf p).isSome) →
      corpus_lookup source sf label = none →
      resolve_searches source sf (pre ++ label :: tail)
        = Except.error (.CannotFindEquipment label) := by
  intro pre
  induction pre with
  | nil =>
    intro label tail _ hl
    simp only [List.nil_append, resolve_searches, hl]
  | cons p ps ih =>
    intro label tail hpre hl
    obtain ⟨eq, heq⟩ := Option.isSome_iff_exists.mp (hpre p (by simp))
    simp only [List.cons_append, resolve_searches, heq, List.append_eq]
    rw [ih label tail (fun q hq => hpre q (by simp [hq])) hl]
    rfl

theorem corpus_lookup_none_iff (source : List Equipment)
    (sf : String → List String) (label : String) :
    corpus_lookup source sf label = none ↔
      ((sf label).head? = none
        ∨ ∃ t, (sf label).head? = some t
            ∧ source.find? (fun e => e.name == t) = none) := by
  unfold corpus_lookup
  cases hh : (sf label).head? with
  | none => simp [hh]
  | some t => simp [hh]

/-- C3: once fetch and parsing succeed, the resolver walks the labels
in configured order; at the first label whose lookup fails — the
corpus returns no above-threshold entry, or the best entry's name has
no equal-name record — the whole group resolution fails with
`CannotFindEquipment` (the spec's `EquipmentNotFound`) for that label,
no records are produced, and the remaining labels are never processed
(the result is the same for every tail). -/
theorem location_fail_fast_contract (source : List Equipment)
    (sf : String → List String) (pre : List String) (label : String)
    (tail : List String) :
    ((∀ p ∈ pre, (corpus_lookup source sf p).isSome) →
      corpus_lookup source sf label = none →
      resolve_searches source sf (pre ++ label :: tail)
        = Except.error (EquipmentAccessError.CannotFindEquipment label))
    ∧ (corpus_lookup source sf label = none ↔
        ((sf label).head? = none
          ∨ ∃ t, (sf label).head? = some t
              ∧ source.find? (fun e => e.name == t) = none)) :=
  ⟨resolve_searches_append_fail source sf pre label tail,
    corpus_lookup_none_iff source sf label⟩

/-- Witness for C3: with one resolvable label "Gleis 1" followed by
the unresolvable "Gleis 9", the group fails with
`CannotFindEquipment "Gleis 9"` even though a further label follows. -/
theorem location_fail_fast_contract_witness :
    resolve_searches [sample_equipment] sample_search_fn
        (["Gleis 1"] ++ "Gleis 9" :: ["Gleis 5"])
      = Except.error (EquipmentAccessError.CannotFindEquipment "Gleis 9") :=
  (location_fail_fast_contract [sample_equipment] sample_search_fn
      ["Gleis 1"] "Gleis 9" ["Gleis 5"]).1 (by decide) (by decide)

theorem upload_go_attempts_le {ε : Type} (push : Nat → Except ε Unit) :
    ∀ (l : List Nat) (d : Nat) (lr : Except ε Unit) (a : Nat) (sl : List Nat),
      (upload_go push d lr a sl l).attempts ≤ a + l.length := by
  intro l
  induction l with
  | nil => intro d lr a sl; simp [upload_go]
  | cons i rest ih =>
    intro d lr a sl
    simp only [upload_go]
    cases push i with
    | ok u => simp
    | error e =>
      calc (upload_go push (d * 2) (Except.error e) (a + 1) (sl ++ [d]) rest).attempts
          ≤ (a + 1) + rest.length := ih _ _ _ _
        _ ≤ a + (i :: rest).length := by simp; omega

/-- C4: Resilient Delivery performs at most 5 push attempts; if some
attempt succeeds it returns success immediately (the attempt count is
exactly the index of the first success), and if attempts 1 through 5
all fail it returns the 5th attempt's failure after exactly 5 attempts
(never a success, never a 6th attempt). -/
theorem upload_retry_contract {ε : Type} (push : Nat → Except ε Unit) :
    (upload_image push).attempts ≤ 5
    ∧ (∀ k, 1 ≤ k → k ≤ 5 → push k = Except.ok () →
        (∀ j, 1 ≤ j → j < k → ∃ e, push j = Except.error e) →
        (upload_image push).result = Except.ok () ∧ (upload_image push).attempts = k)
    ∧ ((∀ k, 1 ≤ k → k ≤ 5 → ∃ e, push k = Except.error e) →
        (upload_image push).result = push 5 ∧ (upload_image push).attempts = 5) := by
  have hr : List.range' 1 NUM_RETRIES = [1, 2, 3, 4, 5] := rfl
  refine ⟨?_, ?_, ?_⟩
  · have h := upload_go_attempts_le push [1, 2, 3, 4, 5] 100 (Except.ok ()) 0 []
    simpa [upload_image, hr] using h
  · intro k hk1 hk5 hok hprev
    interval_cases k
    · exact ⟨by simp [upload_image, hr, upload_go, hok], by simp [upload_image, hr, upload_go, hok]⟩
    · obtain ⟨e1, he1⟩ := hprev 1 (by norm_num) (by norm_num)
      exact ⟨by simp [upload_image, hr, upload_go, he1, hok],
        by simp [upload_image, hr, upload_go, he1, hok]⟩
    · obtain ⟨e1, he1⟩ := hprev 1 (by norm_num) (by norm_num)
      obtain ⟨e2, he2⟩ := hprev 2 (by norm_num) (by norm_num)
      exact ⟨by simp [upload_image, hr, upload_go, he1, he2, hok],
        by simp [upload_image, hr, upload_go, he1, he2, hok]⟩
    · obtain ⟨e1, he1⟩ := hprev 1 (by norm_num) (by norm_num)
      obtain ⟨e2, he2⟩ := hprev 2 (by norm_num) (by norm_num)
      obtain ⟨e3, he3⟩ := hprev 3 (by norm_num) (by norm_num)
      exact ⟨by simp [upload_image, hr, upload_go, he1, he2, he3, hok],
        by simp [upload_image, hr, upload_go, he1, he2, he3, hok]⟩
    · obtain ⟨e1, he1⟩ := hprev 1 (by norm_num) (by norm_num)
      obtain ⟨e2, he2⟩ := hprev 2 (by norm_num) (by norm_num)
      obtain ⟨e3, he3⟩ := hprev 3 (by norm_num) (by norm_num)
      obtain ⟨e4, he4⟩ := hprev 4 (by norm_num) (by norm_num)
      exact ⟨by simp [upload_image, hr, upload_go, he1, he2, he3, he4, hok],
        by simp [upload_image, hr, upload_go, he1, he2, he3, he4, hok]⟩
  · intro h
    obtain ⟨e1, he1⟩ := h 1 (by norm_num) (by norm_num)
    obtain ⟨e2, he2⟩ := h 2 (by norm_num) (by norm_num)
    obtain ⟨e3, he3⟩ := h 3 (by norm_num) (by norm_num)
    obtain ⟨e4, he4⟩ := h 4 (by norm_num) (by norm_num)
    obtain ⟨e5, he5⟩ := h 5 (by norm_num) (by norm_num)
    exact ⟨by simp [upload_image, hr, upload_go, he1, he2, he3, he4, he5],
      by simp [upload_image, hr, upload_go, he1, he2, he3, he4, he5]⟩

/-- Witness for C4: a push failing twice then succeeding gives success
after exactly 3 attempts; an always-failing push gives the 5th
attempt's error after exactly 5 attempts. -/
theorem upload_retry_contract_witness :
    (upload_image fails_twice).result = Except.ok ()
    ∧ (upload_image fails_twice).attempts = 3
    ∧ (upload_image always_error).result = always_error 5
    ∧ (upload_image always_error).attempts = 5 := by
  have h2 := (upload_retry_contract fails_twice).2.1 3 (by norm_num) (by norm_num) rfl
    (fun j hj1 hj3 => ⟨(), by interval_cases j <;> rfl⟩)
  have h3 := (upload_retry_contract always_error).2.2 (fun k _ _ => ⟨(), rfl⟩)
  exact ⟨h2.1, h2.2, h3.1, h3.2⟩

/-- C5 (amended): a backoff sleep follows every failed attempt —
including the final one — with delays 100, 200, 400, … ms doubling
after each failure; when the push fails on attempts 1-4 and succeeds
on attempt 5, the total slept time is exactly 100+200+400+800 ms and
no sleep follows the successful final attempt; when all 5 attempts
fail, a 1600 ms sleep follows the 5th attempt. -/
theorem upload_backoff_contract {ε : Type} (push : Nat → Except ε Unit) :
    ((∀ j, 1 ≤ j → j ≤ 4 → ∃ e, push j = Except.error e) → push 5 = Except.ok () →
      (upload_image push).result = Except.ok ()
        ∧ (upload_image push).sleeps = [100, 200, 400, 800]
        ∧ (upload_image push).sleeps.sum = 100 + 200 + 400 + 800)
    ∧ ((∀ j, 1 ≤ j → j ≤ 5 → ∃ e, push j = Except.error e) →
      (upload_image push).sleeps = [100, 200, 400, 800, 1600]) := by
  have hr : List.range' 1 NUM_RETRIES = [1, 2, 3, 4, 5] := rfl
  constructor
  · intro hfail hok
    obtain ⟨e1, he1⟩ := hfail 1 (by norm_num) (by norm_num)
    obtain ⟨e2, he2⟩ := hfail 2 (by norm_num) (by norm_num)
    obtain ⟨e3, he3⟩ := hfail 3 (by norm_num) (by norm_num)
    obtain ⟨e4, he4⟩ := hfail 4 (by norm_num) (by norm_num)
    refine ⟨?_, ?_, ?_⟩ <;>
      simp [upload_image, hr, upload_go, he1, he2, he3, he4, hok]
  · intro hfail
    obtain ⟨e1, he1⟩ := hfail 1 (by norm_num) (by norm_num)
    obtain ⟨e2, he2⟩ := hfail 2 (by norm_num) (by norm_num)
    obtain ⟨e3, he3⟩ := hfail 3 (by norm_num) (by norm_num)
    obtain ⟨e4, he4⟩ := hfail 4 (by norm_num) (by norm_num)
    obtain ⟨e5, he5⟩ := hfail 5 (by norm_num) (by norm_num)
    simp [upload_image, hr, upload_go, he1, he2, he3, he4, he5]

/-- Counterexample for C5 as stated: for an always-failing push the
code performs 5 sleeps — the delays are 100, 200, 400, 800 and 1600 ms
— so a (1600 ms) sleep follows the 5th and final failed attempt, while
the claim ("a backoff sleep happens only after a failed attempt with
attempts remaining", "no sleep follows the final attempt") allows at
most `NUM_RETRIES - 1 = 4` sleeps. -/
theorem upload_backoff_counterexample :
    (upload_image always_error).sleeps = [100, 200, 400, 800, 1600]
    ∧ ¬((upload_image always_error).sleeps.length ≤ NUM_RETRIES - 1) :=
  ⟨rfl, by decide⟩

/-- Witness for C5 (amended): the two backoff schedules at concrete
pushes. -/
theorem upload_backoff_contract_witness :
    (upload_image fails_then_ok).result = Except.ok ()
    ∧ (upload_image fails_then_ok).sleeps = [100, 200, 400, 800]
    ∧ (upload_image always_error).sleeps = [100, 200, 400, 800, 1600] := by
  have h1 := (upload_backoff_contract fails_then_ok).1
    (fun j hj1 hj4 => ⟨(), by interval_cases j <;> rfl⟩) rfl
  have h2 := (upload_backoff_contract always_error).2 (fun j _ _ => ⟨(), rfl⟩)
  exact ⟨h1.1, h1.2.1, h2⟩

/-- C6 (code divergence): for every feature object lacking a
`properties` sub-object the Feature Parser fails — it never panics,
the Lean embedding is total — with a `MissingValue` whose payload is
the serialized input object, but whose field component is the literal
"description", not "properties" as the spec states; at the concrete
input `\x7b\x7d` the error is `MissingValue("description", "\x7b\x7d")`. -/
theorem missing_properties_divergence :
    (∀ json : Json, json.get "properties" = none →
      parse_equipment json
        = Except.error (EquipmentAccessError.MissingValue "description" json.toString))
    ∧ parse_equipment empty_object
      = Except.error (EquipmentAccessError.MissingValue "description" "\x7b\x7d") := by
  constructor
  · intro json h
    simp only [parse_equipment, h]
  · rfl

/-- Witness for C6: the divergence theorem applied at a feature that
is an array, hence has no `properties` object. -/
theorem missing_properties_divergence_witness :
    parse_equipment (Json.arr [])
      = Except.error (EquipmentAccessError.MissingValue "description" "[]") :=
  missing_properties_divergence.1 (Json.arr []) rfl

/-- Counterexample for C7 as stated: a feature whose
`properties.description` is the empty string parses successfully into
a record whose `name` is the empty string, so a constructed Equipment
Record does not always have a non-empty name. -/
theorem nonempty_name_counterexample :
    parse_equipment empty_description_feature
      = Except.ok { name := "", category := "elevator", working := none, place := none } :=
  rfl

/-- C7 (amended): every Equipment Record constructed by the Feature
Parser has a name and a category string, and `working`/`place` may be
absent; the name is non-empty unless the description field itself
carried the empty string (the placeholder substituted for a missing or
non-string description is non-empty). -/
theorem record_invariant_contract :
    ∀ (json : Json) (e : Equipment), parse_equipment json = Except.ok e →
      e.name ≠ "" ∨ description_extract json = some "" := by
  intro json e h
  cases hp : json.get "properties" with
  | none =>
    rw [parse_equipment, hp] at h
    exact Except.noConfusion h
  | some properties =>
    simp only [parse_equipment, hp, Except.ok.injEq] at h
    subst h
    simp only [description_extract, hp, Option.some_bind]
    cases hD : (properties.get "description").bind
        (fun description => ((description.get "de").getD description).as_str) with
    | none =>
      left
      simp [hD]
    | some s =>
      by_cases hs : s = ""
      · right
        rw [hs]
      · left
        simpa [hD] using hs

/-- Witness for C7 (amended): a feature with an empty `properties`
object parses to the non-empty placeholder name. -/
theorem record_invariant_contract_witness :
    parse_equipment bare_properties_feature
      = Except.ok (Equipment.mk "Cannot find description!" "elevator" none none)
    ∧ ((Equipment.mk "Cannot find description!" "elevator" none none).name ≠ ""
        ∨ description_extract bare_properties_feature = some "") :=
  ⟨rfl, record_invariant_contract bare_properties_feature
      (Equipment.mk "Cannot find description!" "elevator" none none) rfl⟩

/-- C8: for every feature with a `properties` sub-object, parsing
succeeds (name extraction never fails) and the record's name is
`properties.description.de` when present and a string, else
`properties.description` itself when that is a plain string, else the
fixed placeholder string. -/
theorem name_extraction_contract :
    ∀ (json properties : Json), json.get "properties" = some properties →
      ∃ e, parse_equipment json = Except.ok e
        ∧ (∀ d s, properties.get "description" = some d →
            d.get "de" = some (Json.str s) → e.name = s)
        ∧ (∀ s, properties.get "description" = some (Json.str s) → e.name = s)
        ∧ ((properties.get "description").bind
              (fun d => ((d.get "de").getD d).as_str) = none →
            e.name = "Cannot find description!") := by
  intro json properties hp
  refine ⟨Equipment.mk
      ((((properties.get "description").bind
          (fun description => ((description.get "de").getD description).as_str)).getD
        "Cannot find description!"))
      (((properties.get "category").bind Json.as_str).getD "elevator")
      (((properties.get "isWorking").getD Json.null).as_bool)
      ((properties.get "placeInfoName").bind Json.as_str), ?_, ?_, ?_, ?_⟩
  · simp only [parse_equipment, hp]
  · intro d s hd hde
    simp [hd, hde, Json.as_str]
  · intro s hd
    simp only [hd, Option.some_bind]
    simp [Json.get, Json.as_str]
  · intro hnone
    simp [hnone]

/-- Witness for C8: a feature with a localized `description.de` name
resolves its record name to that string. -/
theorem name_extraction_contract_witness :
    (parse_equipment de_description_feature).toOption.map Equipment.name
      = some "Aufzug Halle" := by
  obtain ⟨e, hok, hde, -, -⟩ := name_extraction_contract de_description_feature
    (Json.obj [("description", Json.obj [("de", Json.str "Aufzug Halle")])]) rfl
  rw [hok]
  simp [Except.toOption, hde (Json.obj [("de", Json.str "Aufzug Halle")]) "Aufzug Halle" rfl rfl]

/-- C10: a feature with a `properties` sub-object whose `category` is
absent or carries a non-string JSON value parses to a record with
category exactly "elevator", which passes the elevator-category filter
of the Feature List Parser. -/
theorem default_category_contract :
    ∀ (json properties : Json), json.get "properties" = some properties →
      (properties.get "category" = none
        ∨ ∃ v, properties.get "category" = some v ∧ v.as_str = none) →
      ∃ e, parse_equipment json = Except.ok e ∧ e.category = "elevator"
        ∧ (to_lowercase e.category == "elevator") = true := by
  intro json properties hp hcat
  have hcc : ((properties.get "category").bind Json.as_str).getD "elevator" = "elevator" := by
    rcases hcat with hc | ⟨v, hc, hv⟩
    · simp [hc]
    · simp [hc, hv]
  refine ⟨Equipment.mk
      ((((properties.get "description").bind
          (fun description => ((description.get "de").getD description).as_str)).getD
        "Cannot find description!"))
      (((properties.get "category").bind Json.as_str).getD "elevator")
      (((properties.get "isWorking").getD Json.null).as_bool)
      ((properties.get "placeInfoName").bind Json.as_str), ?_, hcc, ?_⟩
  · simp only [parse_equipment, hp]
  · simp only [hcc]
    decide

/-- Witness for C10: a numeric `category` value defaults to "elevator"
and passes the filter. -/
theorem default_category_contract_witness :
    (parse_equipment numeric_category_feature).toOption.map Equipment.category
      = some "elevator" := by
  obtain ⟨e, hok, hcat, -⟩ := default_category_contract numeric_category_feature
    (Json.obj [("category", Json.num 5)]) rfl (Or.inr ⟨Json.num 5, rfl, rfl⟩)
  rw [hok]
  simp [Except.toOption, hcat]

theorem grams2_length : ∀ l : List Char, (grams2 l).length = l.length - 1
  | [] => rfl
  | [a] => rfl
  | a :: b :: rest => by
    simp only [grams2, List.length_cons]
    rw [grams2_length (b :: rest)]
    simp

theorem gramsOf_length (s : String) : (gramsOf s).length = s.data.length + 1 := by
  unfold gramsOf
  rw [grams2_length]
  simp

theorem samegrams_self (l : List (Char × Char)) : samegrams l l = l.length := by
  unfold samegrams
  simp only [Nat.min_self]
  exact List.sum_map_count_dedup_eq_length l

theorem similarity_self (s : String) : similarity s s = 1 := by
  have hsg : samegrams (gramsOf s) (gramsOf s) = (gramsOf s).length := samegrams_self _
  have hall : allgrams s s = (gramsOf s).length := by
    unfold allgrams
    rw [hsg]
    omega
  have hdiff : diffgrams s s = 0 := by
    unfold diffgrams
    rw [hall, hsg]
    omega
  have hpos : 0 < (gramsOf s).length := by
    rw [gramsOf_length]
    omega
  have hne : ((gramsOf s).length : ℚ) ≠ 0 :=
    Nat.cast_ne_zero.mpr (Nat.pos_iff_ne_zero.mp hpos)
  unfold similarity
  rw [hall, hdiff]
  push_cast
  field_simp

/-- C9 (corpus modelled from the spec): a query exactly equal to an
ingested name scores similarity 1, which clears the 0.4 threshold, so
the corpus lookup yields a match; a query whose similarity to every
candidate is below the threshold yields no match, and the group
resolution then fails with `CannotFindEquipment` (the spec's
`EquipmentNotFound`) for that label. -/
theorem similarity_lookup_contract (names : List String) (query : String) :
    (query ∈ names →
      similarity query query = 1 ∧ similarity_threshold < 1
        ∧ corpus_search names query similarity_threshold ≠ [])
    ∧ ((∀ t ∈ names, similarity query t < similarity_threshold) →
      corpus_search names query similarity_threshold = []
        ∧ ∀ (source : List Equipment) (rest : List String),
          resolve_searches source
              (fun q => corpus_search names q similarity_threshold) (query :: rest)
            = Except.error (EquipmentAccessError.CannotFindEquipment query)) := by
  constructor
  · intro hmem
    have hlt : similarity_threshold < similarity query query := by
      rw [similarity_self]
      norm_num [similarity_threshold]
    refine ⟨similarity_self query, by norm_num [similarity_threshold], ?_⟩
    intro hnil
    have hq : query ∈ names.filter
        (fun n => decide (similarity_threshold < similarity query n)) :=
      List.mem_filter.mpr ⟨hmem, decide_eq_true hlt⟩
    have hlen := List.length_insertionSort
      (fun a b => similarity query b ≤ similarity query a)
      (names.filter (fun n => decide (similarity_threshold < similarity query n)))
    have hlen2 : (corpus_search names query similarity_threshold).length
        = (names.filter
            (fun n => decide (similarity_threshold < similarity query n))).length := hlen
    rw [hnil] at hlen2
    simp only [List.length_nil] at hlen2
    exact absurd (List.length_eq_zero.mp hlen2.symm) (List.ne_nil_of_mem hq)
  · intro hall
    have hf : names.filter
        (fun n => decide (similarity_threshold < similarity query n)) = [] := by
      rw [List.filter_eq_nil_iff]
      intro t ht
      simp only [decide_eq_true_eq]
      exact not_lt.mpr (le_of_lt (hall t ht))
    have hempty : corpus_search names query similarity_threshold = [] := by
      unfold corpus_search
      rw [hf]
      rfl
    refine ⟨hempty, ?_⟩
    intro source rest
    simp only [resolve_searches, corpus_lookup, hempty, List.head?_nil, Option.none_bind]

/-- Witness for C9: the exact query "Aufzug Nord" matches in a corpus
holding that name, while "Gleis 7" (similarity 0 to every candidate)
yields no match and fails the group resolution. -/
theorem similarity_lookup_contract_witness :
    corpus_search ["Aufzug Nord"] "Aufzug Nord" similarity_threshold ≠ []
    ∧ corpus_search ["Aufzug Nord"] "Gleis 7" similarity_threshold = []
    ∧ resolve_searches [sample_equipment]
        (fun q => corpus_search ["Aufzug Nord"] q similarity_threshold) ["Gleis 7"]
      = Except.error (EquipmentAccessError.CannotFindEquipment "Gleis 7") := by
  have hlow : ∀ t ∈ ["Aufzug Nord"], similarity "Gleis 7" t < similarity_threshold := by
    intro t ht
    have ht' : t = "Aufzug Nord" := by simpa using ht
    subst ht'
    have ha : allgrams "Gleis 7" "Aufzug Nord" = 20 := by decide
    have hd : diffgrams "Gleis 7" "Aufzug Nord" = 20 := by decide
    simp only [similarity, similarity_threshold, ha, hd]
    norm_num
  have h1 := (similarity_lookup_contract ["Aufzug Nord"] "Aufzug Nord").1 (by simp)
  have h2 := (similarity_lookup_contract ["Aufzug Nord"] "Gleis 7").2 hlow
  exact ⟨h1.2.2, h2.1, h2.2 [sample_equipment] []⟩

end ElStatus
